import Mathlib

/-!
A shallow embedding of the core of the `crypto-cycle-top-indicators` backend
(`src/backend/managers/price_manager.py`, `src/backend/managers/historical_manager.py`,
`src/backend/utils.py`) together with proofs about it.

Prices and raw API timestamps are modelled as exact rationals (`ℚ`), persisted
timestamps and cursors as integers (`ℤ`), matching the Python `int` values.
Python exceptions are modelled explicitly: a call that mutates `self` and then
raises is modelled as returning the mutated state together with `some` error.
-/

namespace CryptoTop

/-! ### Constants (price_manager.py lines 6-8, historical_manager.py lines 15-18) -/

def MINUTES_PER_DAY : ℕ := 24 * 60

def MA111_WINDOW : ℕ := 111 * MINUTES_PER_DAY

def MA350_WINDOW : ℕ := 350 * MINUTES_PER_DAY

/-! ### PriceManager (price_manager.py) -/

/-- The error raised by `update_moving_averages`:
`ValueError("Not enough data points for 350-day moving average")`. -/
inductive PMError
  | notEnoughData
  deriving DecidableEq

/-- The mutable state of a `PriceManager` object.  `prices_350d` is the price
buffer, `sum_350`/`sum_111` the running sums, `ma111`/`ma350` the entries of
the `moving_averages` dict (`none` models Python `None`). -/
structure PriceManager where
  prices_350d : List ℚ
  sum_350 : ℚ
  sum_111 : ℚ
  ma111 : Option ℚ
  ma350 : Option ℚ
  latest_price : Option ℚ
  deriving DecidableEq

/-- Python slice `l[-n:]`: the last `n` elements (the whole list when `n ≥ len(l)`). -/
def lastSlice (l : List ℚ) (n : ℕ) : List ℚ := l.drop (l.length - n)

/-- Python `PriceManager.__init__` called with a list (price_manager.py lines 11-34).
Python raises `ValueError` when the list is truthy (non-empty) and its length
is not `MA350_WINDOW`; the sums are initialised from the list only when it is
truthy, else to `0.0`. -/
def pmInit (initial_prices : List ℚ) : Except Unit PriceManager :=
  if initial_prices ≠ [] ∧ initial_prices.length ≠ MA350_WINDOW then
    .error ()
  else
    .ok { prices_350d := initial_prices
          sum_350 := if initial_prices ≠ [] then initial_prices.sum else 0
          sum_111 := if initial_prices ≠ [] then (lastSlice initial_prices MA111_WINDOW).sum else 0
          ma111 := none
          ma350 := none
          latest_price := none }

/-- Python `PriceManager.update_moving_averages` (price_manager.py lines 36-61).
Returns the state of `self` after the call together with `some e` when the
call raised (the state component is the one left behind by the partial
mutation, exactly as in Python).  `buf1.headI` is `self.prices_350d.pop(0)`
(the list is non-empty there, having just been appended to) and
`getD (len - (MA111_WINDOW + 1)) 0` is the Python negative index
`self.prices_350d[-MA111_WINDOW - 1]`, in bounds in the branch where it runs. -/
def update_moving_averages (s : PriceManager) (new_price : ℚ) :
    PriceManager × Option PMError :=
  let buf1 := s.prices_350d ++ [new_price]
  let sum1 := s.sum_350 + new_price
  let buf2 := if buf1.length > MA350_WINDOW then buf1.tail else buf1
  let sum2 := if buf1.length > MA350_WINDOW then sum1 - buf1.headI else sum1
  if buf2.length < MA350_WINDOW then
    ({ s with prices_350d := buf2, sum_350 := sum2 }, some .notEnoughData)
  else
    let falling := buf2.getD (buf2.length - (MA111_WINDOW + 1)) 0
    let sum111 := s.sum_111 - falling + new_price
    ({ s with
        prices_350d := buf2
        sum_350 := sum2
        sum_111 := sum111
        ma111 := some (sum111 / (MA111_WINDOW : ℚ))
        ma350 := some (sum2 / (MA350_WINDOW : ℚ)) },
      none)

/-- Fold a sequence of ticks through `update_moving_averages`, keeping the
state each (possibly failing) call leaves behind, as the Python object would. -/
def runUpdates (s : PriceManager) : List ℚ → PriceManager
  | [] => s
  | p :: ps => runUpdates (update_moving_averages s p).1 ps

/-- Returns `true` iff every call in the sequence returns without raising. -/
def allOk (s : PriceManager) : List ℚ → Bool
  | [] => true
  | p :: ps =>
    (update_moving_averages s p).2.isNone && allOk (update_moving_averages s p).1 ps

/-- The warmed-buffer invariant of the spec: full buffer, and both running
sums agree exactly with the sums over the buffer. -/
def WarmInv (s : PriceManager) : Prop :=
  s.prices_350d.length = MA350_WINDOW ∧
  s.sum_350 = s.prices_350d.sum ∧
  s.sum_111 = (lastSlice s.prices_350d MA111_WINDOW).sum

/-! ### HistoricalDataManager (historical_manager.py) -/

/-- Constant `BATCH_SIZE = 1440` minutes per request (historical_manager.py line 15). -/
def BATCH_SIZE : ℤ := 1440

/-- Constant `MILLISECONDS_THRESHOLD = 1e12` (historical_manager.py line 18). -/
def MILLISECONDS_THRESHOLD : ℚ := 10 ^ 12

/-- Python `int(q)`: truncation toward zero. -/
def truncInt (q : ℚ) : ℤ := if 0 ≤ q then ⌊q⌋ else ⌈q⌉

/-- The timestamp step of `process_api_data` (historical_manager.py line 82):
`int(timestamp / 1000) if timestamp > 1e12 else int(timestamp)`. -/
def normalize_timestamp (raw : ℚ) : ℤ :=
  if raw > MILLISECONDS_THRESHOLD then truncInt (raw / 1000) else truncInt raw

/-- One row of the persisted CSV store.  `Volume := none` models `np.nan`. -/
structure Record where
  Timestamp : ℤ
  Open : ℚ
  High : ℚ
  Low : ℚ
  Close : ℚ
  Volume : Option ℚ
  deriving DecidableEq

/-- Python `process_api_data` (historical_manager.py lines 78-91) on a
`[timestamp, price]` pair. -/
def process_api_data (point : ℚ × ℚ) : Record :=
  { Timestamp := normalize_timestamp point.1
    Open := point.2
    High := point.2
    Low := point.2
    Close := point.2
    Volume := none }

/-- The overlap-filter value of `get_missing_data` (historical_manager.py
line 126): `point[0] / 1000 if point[0] > 1e12 else point[0]` — note that,
unlike `process_api_data`, it does **not** truncate to an integer. -/
def filterVal (raw : ℚ) : ℚ :=
  if raw > MILLISECONDS_THRESHOLD then raw / 1000 else raw

/-- The `while current_ts < current_time` loop of `get_missing_data`
(historical_manager.py lines 118-135).  `fetch` abstracts
`fetch_historical_batch` after its retries: `.ok` is the returned point list,
`.error` a terminal failure (the `except` branch).  Returns the collected
`all_new_data` (in collection order) together with the list of failed batch
ranges (what the `except` branch logs). -/
def batchLoop (fetch : ℤ → ℤ → Except Unit (List (ℚ × ℚ)))
    (last_timestamp current_ts current_time : ℤ) : List Record × List (ℤ × ℤ) :=
  if current_ts < current_time then
    let batch_end := min (current_ts + BATCH_SIZE * 60) current_time
    match fetch current_ts batch_end with
    | .ok batch_data =>
      let processed := (batch_data.filter
          (fun point => decide (filterVal point.1 > (last_timestamp : ℚ)))).map process_api_data
      let rest := batchLoop fetch last_timestamp (batch_end + 60) current_time
      (processed ++ rest.1, rest.2)
    | .error _ =>
      let rest := batchLoop fetch last_timestamp (batch_end + 60) current_time
      (rest.1, (current_ts, batch_end) :: rest.2)
  else ([], [])
termination_by (current_time - current_ts).toNat
decreasing_by
  all_goals
    simp only [BATCH_SIZE]
    rw [Int.min_def]
    split <;> omega

/-- The sequence of batch ranges that the loop cursor walks through, independent
of any fetch outcome. -/
def batchSchedule (current_ts current_time : ℤ) : List (ℤ × ℤ) :=
  if current_ts < current_time then
    let batch_end := min (current_ts + BATCH_SIZE * 60) current_time
    (current_ts, batch_end) :: batchSchedule (batch_end + 60) current_time
  else []
termination_by (current_time - current_ts).toNat
decreasing_by
  simp only [BATCH_SIZE]
  rw [Int.min_def]
  split <;> omega

/-- Python `HistoricalDataManager.get_missing_data` (historical_manager.py lines
100-146).  `last_timestamp` is what `get_last_timestamp` returned (`none`
models Python `None`); the guard `if not last_timestamp` is also true for the
integer `0`.  `appendOk` abstracts whether `append_to_csv` succeeds (when it
raises, the outer handler returns `False` and nothing is recorded as
appended).  Returns the Python return value together with the records
appended to the store. -/
def get_missing_data (last_timestamp : Option ℤ) (current_time : ℤ)
    (fetch : ℤ → ℤ → Except Unit (List (ℚ × ℚ))) (appendOk : Bool) :
    Bool × List Record :=
  match last_timestamp with
  | none => (false, [])
  | some t =>
    if t = 0 then (false, [])
    else if current_time - t < 60 then (true, [])
    else
      let run := batchLoop fetch t (t + 60) current_time
      if run.1.isEmpty then (true, [])
      else
        let sorted := run.1.mergeSort (fun a b => decide (a.Timestamp ≤ b.Timestamp))
        if appendOk then (true, sorted) else (false, [])

/-! ### resume point scan (utils.py lines 237-246) -/

/-- How the backward scan of `get_missing_data` in utils.py can fail:
`corruptStore` is the `ValueError("Could not find valid timestamp in last 10
rows")` raised by the `for ... else` clause; `indexError` is the *uncaught*
`IndexError` raised by `iloc[-(i+1)]` when the scan walks past the first row
(in particular on an empty store). -/
inductive ResumeError
  | corruptStore
  | indexError
  deriving DecidableEq

/-- The loop `for i in range(10): try: int(df[Timestamp].iloc[-(i+1)])`
(utils.py lines 239-246).  `rows` holds the parse attempt of each row in file
order (`none`: `int(...)` raises `ValueError`/`TypeError`); `tries` is the
remaining iteration count (10 at the top call).  `iloc[-(i+1)]` with
`i + 1 > len(rows)` raises `IndexError`, which the `except` clause does not
catch. -/
def scanBack (rows : List (Option ℤ)) (i : ℕ) : ℕ → Except ResumeError ℤ
  | 0 => .error .corruptStore
  | tries + 1 =>
    if h : i + 1 ≤ rows.length then
      match rows.get ⟨rows.length - (i + 1), by omega⟩ with
      | some t => .ok t
      | none => scanBack rows (i + 1) tries
    else .error .indexError

/-- The whole timestamp-reading preamble of utils.py `get_missing_data`. -/
def get_last_valid_timestamp (rows : List (Option ℤ)) : Except ResumeError ℤ :=
  scanBack rows 0 10

/-! ### RateLimiter (historical_manager.py lines 39-44) -/

/-- Constant `MIN_REQUEST_INTERVAL = 1.5` seconds (historical_manager.py line 16). -/
def MIN_REQUEST_INTERVAL : ℚ := 3 / 2

/-- The sleep `_wait_for_rate_limit` requests: `MIN_REQUEST_INTERVAL -
elapsed` when `elapsed < MIN_REQUEST_INTERVAL`, else no sleep. -/
def sleepNeeded (last_request_time t : ℚ) : ℚ :=
  if t - last_request_time < MIN_REQUEST_INTERVAL then
    MIN_REQUEST_INTERVAL - (t - last_request_time)
  else 0

/-- Python `_wait_for_rate_limit` records the second `time.time()` reading `t2` as
the new `last_request_time` (the reading taken after the sleep, if any). -/
def wait_for_rate_limit (last_request_time t t2 : ℚ) : ℚ := t2

/-- One entry per call to `_wait_for_rate_limit`: the two `time.time()`
readings of that call (before the sleep, and after it when recording). -/
def rateRecorded (last_request_time : ℚ) : List (ℚ × ℚ) → List ℚ
  | [] => []
  | c :: cs =>
    wait_for_rate_limit last_request_time c.1 c.2 ::
      rateRecorded (wait_for_rate_limit last_request_time c.1 c.2) cs

/-- Real-time semantics of the calls: within each call, the second clock
reading is at least the first one plus the requested sleep (`time.sleep`
sleeps at least as long as asked and the clock is monotone). -/
def ClockOk (last_request_time : ℚ) : List (ℚ × ℚ) → Prop
  | [] => True
  | c :: cs =>
    c.1 + sleepNeeded last_request_time c.1 ≤ c.2 ∧
      ClockOk (wait_for_rate_limit last_request_time c.1 c.2) cs

/-! ### file_lock (utils.py lines 14-45) and append_to_csv -/

/-- Observable events of one `append_to_csv` call through `file_lock`. -/
inductive LockEvent
  | acquire
  | write
  | release
  | logReleaseFailure
  deriving DecidableEq

/-- Python `append_to_csv` under `with file_lock(...)` (historical_manager.py lines
93-98, utils.py lines 14-45).  `acquireOk`: `open`+`flock` succeed;
`bodyOk`: the CSV write succeeds; `releaseOk`: unlock/close/remove succeed.
Result: `true` iff the call returns normally (`false` models the re-raised
exception re-raised after the `finally` block), together with the event
trace.  When `open` itself raises, `lock_fd` is `None` and the `finally`
block does nothing.  A release failure is caught inside the `finally` block
(`except (IOError, OSError)`) and only logged. -/
def append_with_lock (acquireOk bodyOk releaseOk : Bool) : Bool × List LockEvent :=
  if acquireOk = false then (false, [])
  else
    (bodyOk,
      LockEvent.acquire ::
        ((if bodyOk then [LockEvent.write] else []) ++
          (if releaseOk then [LockEvent.release] else [LockEvent.logReleaseFailure])))

/-- A fetch oracle for one concrete run: the single scheduled batch returns
one point whose raw timestamp is the millisecond value `10^12 + 500`,
i.e. the instant half a second after epoch second `10^9`. -/
def fetchC2 : ℤ → ℤ → Except Unit (List (ℚ × ℚ)) :=
  fun from_ts _ => if from_ts = 10 ^ 9 + 60 then .ok [((10 : ℚ) ^ 12 + 500, 42)] else .error ()


/-! ## Theorems -/

/-! ### Numeric values of the window constants -/

theorem MINUTES_PER_DAY_eq : MINUTES_PER_DAY = 1440 := by decide

theorem MA111_WINDOW_eq : MA111_WINDOW = 159840 := by decide

theorem MA350_WINDOW_eq : MA350_WINDOW = 504000 := by decide

/-! ### Behaviour of `update_moving_averages` on under-full and full buffers -/

/-- On a buffer at least two short of `MA350_WINDOW`, the call appends the
price, adds it to `sum_350`, and then raises, leaving everything else as it
was (this is the partial mutation the Python exception leaves behind). -/
theorem update_underfull (s : PriceManager) (p : ℚ)
    (h : s.prices_350d.length + 1 < MA350_WINDOW) :
    update_moving_averages s p =
      ({ s with prices_350d := s.prices_350d ++ [p], sum_350 := s.sum_350 + p },
        some .notEnoughData) := by
  rw [update_moving_averages]
  have h1 : ¬ ((s.prices_350d ++ [p]).length > MA350_WINDOW) := by
    simp only [List.length_append, List.length_singleton]
    omega
  simp only [h1, if_false, if_neg h1]
  have h2 : (s.prices_350d ++ [p]).length < MA350_WINDOW := by
    simp only [List.length_append, List.length_singleton]
    omega
  simp only [if_pos h2]

/-- On a full buffer the call succeeds: it slides the window, maintains both
running sums, and publishes both moving averages. -/
theorem update_warm_step (s : PriceManager) (p : ℚ) (h : WarmInv s) :
    (update_moving_averages s p).2 = none ∧
    WarmInv (update_moving_averages s p).1 ∧
    (update_moving_averages s p).1.ma111 =
      some ((lastSlice (update_moving_averages s p).1.prices_350d MA111_WINDOW).sum
        / (MA111_WINDOW : ℚ)) ∧
    (update_moving_averages s p).1.ma350 =
      some ((update_moving_averages s p).1.prices_350d.sum / (MA350_WINDOW : ℚ)) := by
  obtain ⟨hlen, hs350, hs111⟩ := h
  rcases hbuf : s.prices_350d with _ | ⟨a, t⟩
  · rw [hbuf] at hlen
    exact absurd hlen (by decide)
  · have ht : t.length = 503999 := by
      rw [hbuf] at hlen
      simp only [List.length_cons, MA350_WINDOW_eq] at hlen
      omega
    have hidx : (344159 : ℕ) < t.length := by omega
    -- the reduced form of the call
    have key : update_moving_averages s p =
        ({ s with
            prices_350d := t ++ [p]
            sum_350 := s.sum_350 + p - a
            sum_111 := s.sum_111 - t.getD 344159 0 + p
            ma111 := some ((s.sum_111 - t.getD 344159 0 + p) / (MA111_WINDOW : ℚ))
            ma350 := some ((s.sum_350 + p - a) / (MA350_WINDOW : ℚ)) }, none) := by
      rw [update_moving_averages, hbuf]
      simp only [List.cons_append]
      have h1 : (a :: (t ++ [p])).length > MA350_WINDOW := by
        simp only [List.length_cons, List.length_append,
          List.length_singleton, MA350_WINDOW_eq]
        omega
      simp only [if_pos h1, List.tail_cons, List.headI_cons]
      have h2 : ¬ ((t ++ [p]).length < MA350_WINDOW) := by
        simp only [List.length_append, List.length_singleton, MA350_WINDOW_eq]
        omega
      simp only [if_neg h2]
      have h3 : (t ++ [p]).length - (MA111_WINDOW + 1) = 344159 := by
        simp only [List.length_append, List.length_singleton, MA111_WINDOW_eq]
        omega
      rw [h3, List.getD_append _ _ _ _ hidx]
    have hsum350 : s.sum_350 + p - a = (t ++ [p]).sum := by
      rw [hs350, hbuf]
      simp only [List.sum_cons, List.sum_append, List.sum_singleton, List.sum_nil, add_zero]
      ring
    have hdrop : lastSlice (t ++ [p]) MA111_WINDOW = t.drop 344160 ++ [p] := by
      rw [lastSlice]
      have h4 : (t ++ [p]).length - MA111_WINDOW = 344160 := by
        simp only [List.length_append, List.length_singleton, MA111_WINDOW_eq]
        omega
      rw [h4, List.drop_append_of_le_length (by omega)]
    have hsum111 : s.sum_111 - t.getD 344159 0 + p = (t.drop 344160 ++ [p]).sum := by
      have h5 : lastSlice (a :: t) MA111_WINDOW = t.drop 344159 := by
        rw [lastSlice]
        have : (a :: t).length - MA111_WINDOW = 344160 := by
          simp only [List.length_cons, MA111_WINDOW_eq]
          omega
        rw [this]
        rfl
      have h6 : t.drop 344159 = t[344159] :: t.drop 344160 :=
        List.drop_eq_getElem_cons hidx
      rw [hs111, hbuf, h5, h6, List.getD_eq_getElem _ _ hidx]
      simp only [List.sum_cons, List.sum_append, List.sum_singleton, List.sum_nil, add_zero]
      ring
    refine ⟨by rw [key], ⟨?_, ?_, ?_⟩, ?_, ?_⟩
    · rw [key]
      simp only [List.length_append, List.length_singleton, MA350_WINDOW_eq]
      omega
    · rw [key]
      exact hsum350
    · rw [key]
      simp only
      rw [hdrop, hsum111]
    · rw [key]
      simp only
      rw [hdrop, hsum111]
    · rw [key]
      simp only
      rw [hsum350]

theorem runUpdates_append (s : PriceManager) (l1 l2 : List ℚ) :
    runUpdates s (l1 ++ l2) = runUpdates (runUpdates s l1) l2 := by
  induction l1 generalizing s with
  | nil => rfl
  | cons p ps ih =>
    simp only [List.cons_append, runUpdates]
    exact ih _

theorem allOk_append (s : PriceManager) (l1 l2 : List ℚ) :
    allOk s (l1 ++ l2) = (allOk s l1 && allOk (runUpdates s l1) l2) := by
  induction l1 generalizing s with
  | nil => rfl
  | cons p ps ih =>
    simp only [List.cons_append, allOk, runUpdates]
    rw [show allOk (update_moving_averages s p).1 (ps.append l2) =
          allOk (update_moving_averages s p).1 (ps ++ l2) from rfl,
        ih, Bool.and_assoc]

/-- A warm state stays warm along any update sequence, and no call raises. -/
theorem warmInv_runUpdates (l : List ℚ) (s : PriceManager) (h : WarmInv s) :
    WarmInv (runUpdates s l) ∧ allOk s l = true := by
  induction l generalizing s with
  | nil => exact ⟨h, rfl⟩
  | cons p ps ih =>
    obtain ⟨hok, hinv, -, -⟩ := update_warm_step s p h
    obtain ⟨hinv', hok'⟩ := ih _ hinv
    refine ⟨hinv', ?_⟩
    simp only [allOk, hok, Option.isNone_none, Bool.true_and, hok']

/-! ### Claim theorems for the PriceManager -/

/-- C1: a `PriceManager` pre-warmed with exactly `MA350_WINDOW` prices keeps,
after every further call to `update_moving_averages`, a buffer of exactly
`MA350_WINDOW` elements, `sum_350` equal to the sum of the whole buffer,
`sum_111` equal to the sum of the last `MA111_WINDOW` buffer elements, and
publishes `MA111` and `MA350` as the corresponding arithmetic means (exact
rational arithmetic; no call in the sequence raises). -/
theorem C1_warm_window_invariant (init : List ℚ) (s : PriceManager)
    (hlen : init.length = MA350_WINDOW) (hinit : pmInit init = .ok s)
    (ps : List ℚ) (p : ℚ) :
    allOk s (ps ++ [p]) = true ∧
    (runUpdates s (ps ++ [p])).prices_350d.length = MA350_WINDOW ∧
    (runUpdates s (ps ++ [p])).sum_350 = (runUpdates s (ps ++ [p])).prices_350d.sum ∧
    (runUpdates s (ps ++ [p])).sum_111 =
      (lastSlice (runUpdates s (ps ++ [p])).prices_350d MA111_WINDOW).sum ∧
    (runUpdates s (ps ++ [p])).ma111 =
      some ((lastSlice (runUpdates s (ps ++ [p])).prices_350d MA111_WINDOW).sum
        / (MA111_WINDOW : ℚ)) ∧
    (runUpdates s (ps ++ [p])).ma350 =
      some ((runUpdates s (ps ++ [p])).prices_350d.sum / (MA350_WINDOW : ℚ)) := by
  have hne : init ≠ [] := by
    intro hcontra
    rw [hcontra] at hlen
    exact absurd hlen.symm (by decide)
  have hs : s = { prices_350d := init
                  sum_350 := init.sum
                  sum_111 := (lastSlice init MA111_WINDOW).sum
                  ma111 := none
                  ma350 := none
                  latest_price := none } := by
    rw [pmInit] at hinit
    rw [if_neg (by simp [hlen])] at hinit
    rw [if_pos hne, if_pos hne] at hinit
    exact ((Except.ok.injEq _ _).mp hinit).symm
  have hf1 : s.prices_350d = init := by rw [hs]
  have hf2 : s.sum_350 = init.sum := by rw [hs]
  have hf3 : s.sum_111 = (lastSlice init MA111_WINDOW).sum := by rw [hs]
  have hwarm : WarmInv s := by
    refine ⟨?_, ?_, ?_⟩
    · rw [hf1]; exact hlen
    · rw [hf2, hf1]
    · rw [hf3, hf1]
  obtain ⟨hinv, hok⟩ := warmInv_runUpdates ps s hwarm
  obtain ⟨hok2, hinv2, hma111, hma350⟩ := update_warm_step (runUpdates s ps) p hinv
  have hrun : runUpdates s (ps ++ [p]) =
      (update_moving_averages (runUpdates s ps) p).1 := by
    rw [runUpdates_append]
    rfl
  refine ⟨?_, ?_, ?_, ?_, ?_, ?_⟩
  · rw [allOk_append, hok, Bool.true_and]
    simp only [allOk, hok2, Option.isNone_none, Bool.true_and]
  · rw [hrun]; exact hinv2.1
  · rw [hrun]; exact hinv2.2.1
  · rw [hrun]; exact hinv2.2.2
  · rw [hrun]; exact hma111
  · rw [hrun]; exact hma350

theorem C1_warm_window_invariant_witness :
    (List.replicate MA350_WINDOW (0 : ℚ)).length = MA350_WINDOW ∧
    pmInit (List.replicate MA350_WINDOW (0 : ℚ)) = Except.ok
      { prices_350d := List.replicate MA350_WINDOW (0 : ℚ), sum_350 := 0, sum_111 := 0,
          ma111 := none, ma350 := none, latest_price := none } ∧
    allOk { prices_350d := List.replicate MA350_WINDOW (0 : ℚ), sum_350 := 0, sum_111 := 0,
             ma111 := none, ma350 := none, latest_price := none } ([] ++ [1]) = true := by
  have hinit : pmInit (List.replicate MA350_WINDOW (0 : ℚ)) = Except.ok
      { prices_350d := List.replicate MA350_WINDOW (0 : ℚ), sum_350 := 0, sum_111 := 0,
          ma111 := none, ma350 := none, latest_price := none } := by
    rw [pmInit]
    rw [if_neg (by simp)]
    simp [lastSlice, List.sum_replicate, List.drop_replicate]
  refine ⟨List.length_replicate _ _, hinit, ?_⟩
  exact (C1_warm_window_invariant _ _ (List.length_replicate _ _) hinit [] 1).1

/-- C3 counterexample: a buffer holding `MA350_WINDOW - 1 = 503999` elements
has fewer than `MA350_WINDOW` elements, yet `update_moving_averages` returns
without raising (append makes the buffer exactly full, so no error). -/
theorem C3_counterexample :
    ({ prices_350d := List.replicate 503999 (0 : ℚ), sum_350 := 0, sum_111 := 0,
        ma111 := none, ma350 := none, latest_price := none } :
        PriceManager).prices_350d.length < MA350_WINDOW ∧
    (update_moving_averages
      { prices_350d := List.replicate 503999 (0 : ℚ), sum_350 := 0, sum_111 := 0,
        ma111 := none, ma350 := none, latest_price := none } 1).2 = none := by
  constructor
  · show (List.replicate 503999 (0 : ℚ)).length < MA350_WINDOW
    rw [List.length_replicate, MA350_WINDOW_eq]
    omega
  · rw [update_moving_averages]
    have h1 : ¬ ((List.replicate 503999 (0 : ℚ) ++ [1]).length > MA350_WINDOW) := by
      rw [List.length_append, List.length_replicate, List.length_singleton, MA350_WINDOW_eq]
      omega
    rw [if_neg h1, if_neg h1]
    have h2 : ¬ ((List.replicate 503999 (0 : ℚ) ++ [1]).length < MA350_WINDOW) := by
      rw [List.length_append, List.length_replicate, List.length_singleton, MA350_WINDOW_eq]
      omega
    rw [if_neg h2]

/-- C3 (amended): whenever the buffer holds fewer than `MA350_WINDOW - 1`
elements at the time of the call, `update_moving_averages` raises the
not-enough-data `ValueError` and the `moving_averages` entries are not
updated by that call.  (At exactly `MA350_WINDOW - 1` elements the call
succeeds, which is what refutes the claim as stated.) -/
theorem C3_underfull_raises (s : PriceManager) (p : ℚ)
    (h : s.prices_350d.length < MA350_WINDOW - 1) :
    (update_moving_averages s p).2 = some PMError.notEnoughData ∧
    (update_moving_averages s p).1.ma111 = s.ma111 ∧
    (update_moving_averages s p).1.ma350 = s.ma350 := by
  have h' : s.prices_350d.length + 1 < MA350_WINDOW := by
    rw [MA350_WINDOW_eq] at h ⊢
    omega
  rw [update_underfull s p h']
  exact ⟨rfl, rfl, rfl⟩

theorem C3_underfull_raises_witness :
    (({ prices_350d := [], sum_350 := 0, sum_111 := 0, ma111 := none, ma350 := none,
        latest_price := none } : PriceManager).prices_350d.length < MA350_WINDOW - 1) ∧
    (update_moving_averages
      { prices_350d := [], sum_350 := 0, sum_111 := 0, ma111 := none, ma350 := none,
        latest_price := none } 5).2 = some PMError.notEnoughData :=
  ⟨by decide, (C3_underfull_raises _ 5 (by decide)).1⟩

/-- C9: on a non-empty buffer more than one element short of full, the failing
call to `update_moving_averages` has already mutated the state before the
error: the price has been appended (the buffer grew by one) and added to
`sum_350`, and the error does not roll this back. -/
theorem C9_mutation_before_raise (s : PriceManager) (p : ℚ)
    (hne : s.prices_350d ≠ []) (h : s.prices_350d.length < MA350_WINDOW - 1) :
    (update_moving_averages s p).2 = some PMError.notEnoughData ∧
    (update_moving_averages s p).1.prices_350d = s.prices_350d ++ [p] ∧
    (update_moving_averages s p).1.prices_350d.length = s.prices_350d.length + 1 ∧
    (update_moving_averages s p).1.sum_350 = s.sum_350 + p := by
  have h' : s.prices_350d.length + 1 < MA350_WINDOW := by
    rw [MA350_WINDOW_eq] at h ⊢
    omega
  rw [update_underfull s p h']
  exact ⟨rfl, rfl, by simp, rfl⟩

theorem C9_mutation_before_raise_witness :
    (({ prices_350d := [1], sum_350 := 1, sum_111 := 0, ma111 := none, ma350 := none,
        latest_price := none } : PriceManager).prices_350d ≠ []) ∧
    (update_moving_averages
      { prices_350d := [1], sum_350 := 1, sum_111 := 0, ma111 := none, ma350 := none,
        latest_price := none } 2).1.prices_350d = [1] ++ [2] :=
  ⟨by decide, (C9_mutation_before_raise _ 2 (by decide) (by decide)).2.1⟩

/-! ### C4: properties of timestamp normalization -/

theorem truncInt_intCast (n : ℤ) : truncInt (n : ℚ) = n := by
  rcases le_or_lt 0 (n : ℚ) with h | h
  · rw [truncInt, if_pos h, Int.floor_intCast]
  · rw [truncInt, if_neg (not_le.mpr h), Int.ceil_intCast]

/-- C4 counterexample: unit invariance fails at the instant `1` second
(`normalize_timestamp 1000 = 1000` while `normalize_timestamp 1 = 1`), and
idempotence fails at the raw value `10^16` (it normalizes to `10^13`, which
normalizes again to `10^10`). -/
theorem C4_counterexample :
    normalize_timestamp (1000 * 1) ≠ normalize_timestamp 1 ∧
    normalize_timestamp ((normalize_timestamp ((10 : ℚ) ^ 16) : ℤ) : ℚ) ≠
      normalize_timestamp ((10 : ℚ) ^ 16) := by
  have h1 : normalize_timestamp (1000 * 1) = 1000 := by
    rw [normalize_timestamp, if_neg (by norm_num [MILLISECONDS_THRESHOLD])]
    rw [show ((1000 : ℚ) * 1) = ((1000 : ℤ) : ℚ) by norm_num, truncInt_intCast]
  have h2 : normalize_timestamp 1 = 1 := by
    rw [normalize_timestamp, if_neg (by norm_num [MILLISECONDS_THRESHOLD])]
    rw [show (1 : ℚ) = ((1 : ℤ) : ℚ) by norm_num, truncInt_intCast]
  have h3 : normalize_timestamp ((10 : ℚ) ^ 16) = 10 ^ 13 := by
    rw [normalize_timestamp, if_pos (by norm_num [MILLISECONDS_THRESHOLD])]
    rw [show ((10 : ℚ) ^ 16 / 1000) = (((10 : ℤ) ^ 13 : ℤ) : ℚ) by push_cast; norm_num,
      truncInt_intCast]
  have h4 : normalize_timestamp (((10 : ℤ) ^ 13 : ℤ) : ℚ) = 10 ^ 10 := by
    rw [normalize_timestamp, if_pos (by push_cast; norm_num [MILLISECONDS_THRESHOLD])]
    rw [show ((((10 : ℤ) ^ 13 : ℤ) : ℚ) / 1000) = (((10 : ℤ) ^ 10 : ℤ) : ℚ) by
      push_cast; norm_num, truncInt_intCast]
  constructor
  · rw [h1, h2]
    decide
  · rw [h3, h4]
    decide

/-- C4 (amended): `normalize_timestamp` maps `raw` to `int(raw / 1000)` when
`raw` exceeds `10^12` and to `int(raw)` otherwise.  Idempotence holds for
every raw value whose normalized form does not exceed the `10^12` threshold
(it fails above, see the counterexample), and unit invariance (seconds vs.
milliseconds) holds for every instant strictly above `10^9` seconds and at
most `10^12` seconds (it fails for small instants, see the counterexample). -/
theorem C4_normalization_amended :
    (∀ raw : ℚ, normalize_timestamp raw =
        if raw > MILLISECONDS_THRESHOLD then truncInt (raw / 1000) else truncInt raw) ∧
    (∀ raw : ℚ, ((normalize_timestamp raw : ℤ) : ℚ) ≤ MILLISECONDS_THRESHOLD →
        normalize_timestamp ((normalize_timestamp raw : ℤ) : ℚ) = normalize_timestamp raw) ∧
    (∀ s : ℚ, 10 ^ 9 < s → s ≤ MILLISECONDS_THRESHOLD →
        normalize_timestamp (1000 * s) = normalize_timestamp s) := by
  refine ⟨fun _ => rfl, ?_, ?_⟩
  · intro raw h
    rw [normalize_timestamp, if_neg (not_lt.mpr h), truncInt_intCast]
  · intro s h9 h12
    have hms : (1000 : ℚ) * s > MILLISECONDS_THRESHOLD := by
      rw [MILLISECONDS_THRESHOLD] at h12 ⊢
      nlinarith
    rw [normalize_timestamp, if_pos hms,
      show ((1000 : ℚ) * s / 1000) = s by field_simp,
      normalize_timestamp, if_neg (not_lt.mpr h12)]

theorem C4_normalization_amended_witness :
    ((10 : ℚ) ^ 9 < 2 * 10 ^ 9) ∧ ((2 * 10 ^ 9 : ℚ) ≤ MILLISECONDS_THRESHOLD) ∧
    normalize_timestamp (1000 * (2 * 10 ^ 9 : ℚ)) = normalize_timestamp (2 * 10 ^ 9 : ℚ) :=
  ⟨by norm_num, by norm_num [MILLISECONDS_THRESHOLD],
    C4_normalization_amended.2.2 _ (by norm_num) (by norm_num [MILLISECONDS_THRESHOLD])⟩

/-! ### C6: the bounded backward scan for a resume timestamp -/

/-- What `scanBack` computes, for any start index and try budget: the first
parseable value among the scanned tail positions, else `indexError` when the
scan would walk past the first row, else the corrupt-store error. -/
theorem scanBack_spec (rows : List (Option ℤ)) :
    ∀ (tries i : ℕ), i ≤ rows.length ∨ 0 < tries →
      scanBack rows i tries =
        match ((rows.reverse.drop i).take tries).findSome? id with
        | some t => .ok t
        | none =>
          if rows.length < i + tries then .error .indexError else .error .corruptStore := by
  intro tries
  induction tries with
  | zero =>
    intro i h
    have hle : i ≤ rows.length := by
      rcases h with h | h
      · exact h
      · omega
    simp only [scanBack, List.take_zero, List.findSome?_nil]
    rw [if_neg (by omega)]
  | succ tries ih =>
    intro i h
    rw [scanBack]
    by_cases hlen : i + 1 ≤ rows.length
    · rw [dif_pos hlen]
      have hi : i < rows.reverse.length := by
        rw [List.length_reverse]
        omega
      have hg : rows.get ⟨rows.length - (i + 1), by omega⟩ = rows.reverse.get ⟨i, hi⟩ := by
        rw [List.get_eq_getElem, List.get_eq_getElem, List.getElem_reverse]
        congr 1
        show rows.length - (i + 1) = rows.length - 1 - i
        omega
      have hdrop : rows.reverse.drop i = rows.reverse.get ⟨i, hi⟩ :: rows.reverse.drop (i + 1) := by
        rw [List.get_eq_getElem]
        exact List.drop_eq_getElem_cons hi
      rw [hg, hdrop]
      cases hx : rows.reverse.get ⟨i, hi⟩ with
      | some t => simp [List.findSome?_cons]
      | none =>
        rw [ih (i + 1) (Or.inl hlen), List.take_succ_cons, List.findSome?_cons]
        simp only [id_eq]
        cases hfs : ((rows.reverse.drop (i + 1)).take tries).findSome? id with
        | some t => rfl
        | none =>
          rw [show (i + 1 + tries) = (i + (tries + 1)) from by omega]
    · rw [dif_neg hlen]
      have hnil : rows.reverse.drop i = [] := by
        apply List.drop_eq_nil_of_le
        rw [List.length_reverse]
        omega
      rw [hnil]
      simp only [List.take_nil, List.findSome?_nil]
      rw [if_pos (by omega)]

/-- C6 counterexample: a store of 15 rows, none of which has a parseable
timestamp, has "no valid record at all", yet the scan fails with the
corrupt-store `ValueError` — not with the `IndexError` that an empty store
raises (what the claim calls the "empty-store error"). -/
theorem C6_counterexample :
    (∀ r ∈ List.replicate 15 (none : Option ℤ), r = none) ∧
    get_last_valid_timestamp (List.replicate 15 none) = .error ResumeError.corruptStore ∧
    Except.error ResumeError.corruptStore ≠
      (Except.error ResumeError.indexError : Except ResumeError ℤ) := by
  refine ⟨fun r hr => List.eq_of_mem_replicate hr, rfl, by simp⟩

/-- C6 (amended): the scan looks at the last (up to) 10 records.  If any of
them parses, it returns the most recent parseable timestamp.  If the store
has at least 10 records and none of the last 10 parses, it fails with the
corrupt-store `ValueError`.  If the store has fewer than 10 records and none
of them parses — in particular if the store is empty — it fails with the
uncaught `IndexError` (what the claim calls the empty-store error); a store of at least
10 unparseable records yields the corrupt-store error instead. -/
theorem C6_resume_scan (rows : List (Option ℤ)) :
    (∀ t, (rows.reverse.take 10).findSome? id = some t →
        get_last_valid_timestamp rows = .ok t) ∧
    ((rows.reverse.take 10).findSome? id = none → 10 ≤ rows.length →
        get_last_valid_timestamp rows = .error .corruptStore) ∧
    ((rows.reverse.take 10).findSome? id = none → rows.length < 10 →
        get_last_valid_timestamp rows = .error .indexError) := by
  have hs := scanBack_spec rows 10 0 (Or.inl (by omega))
  rw [List.drop_zero] at hs
  rw [get_last_valid_timestamp]
  refine ⟨?_, ?_, ?_⟩
  · intro t ht
    rw [hs, ht]
  · intro hn hlen
    rw [hs, hn]
    rw [if_neg (by omega)]
  · intro hn hlen
    rw [hs, hn, if_pos (by omega)]

theorem C6_resume_scan_witness :
    get_last_valid_timestamp [some 7] = .ok 7 :=
  (C6_resume_scan [some 7]).1 7 rfl

/-! ### C7: the spacing guarantee of the rate limiter -/

/-- One call to `_wait_for_rate_limit`: under the clock semantics (the second
reading is at least the first plus the requested sleep), the newly recorded
time is at least `MIN_REQUEST_INTERVAL` after the previous one. -/
theorem rate_step (last t t2 : ℚ) (h : t + sleepNeeded last t ≤ t2) :
    last + MIN_REQUEST_INTERVAL ≤ wait_for_rate_limit last t t2 := by
  rw [wait_for_rate_limit]
  rw [sleepNeeded] at h
  split_ifs at h with hc
  · linarith
  · push_neg at hc
    linarith

/-- C7: along any sequence of consecutive `_wait_for_rate_limit` calls (with
real-time semantics `ClockOk`: for each call, the post-sleep clock reading is at
least its pre-sleep reading plus the requested sleep), each recorded call
time exceeds the previously recorded one by at least
`MIN_REQUEST_INTERVAL = 1.5` seconds — `List.Chain` states this for every
consecutive pair, starting from the prior recorded time. -/
theorem C7_rate_limiter_spacing (last : ℚ) (calls : List (ℚ × ℚ))
    (h : ClockOk last calls) :
    List.Chain (fun a b => a + MIN_REQUEST_INTERVAL ≤ b) last (rateRecorded last calls) := by
  induction calls generalizing last with
  | nil => exact List.Chain.nil
  | cons c cs ih =>
    obtain ⟨h1, h2⟩ := h
    exact List.Chain.cons (rate_step last c.1 c.2 h1) (ih _ h2)

theorem C7_rate_limiter_spacing_witness :
    ClockOk 0 [(2, 2), (3, 7/2)] ∧
    List.Chain (fun a b => a + MIN_REQUEST_INTERVAL ≤ b) 0 (rateRecorded 0 [(2, 2), (3, 7/2)]) := by
  have hclock : ClockOk 0 [(2, 2), (3, 7/2)] := by
    refine ⟨?_, ?_, trivial⟩
    · rw [sleepNeeded]
      norm_num [MIN_REQUEST_INTERVAL]
    · rw [sleepNeeded, wait_for_rate_limit]
      norm_num [MIN_REQUEST_INTERVAL]
  exact ⟨hclock, C7_rate_limiter_spacing 0 [(2, 2), (3, 7/2)] hclock⟩

/-! ### C8: lock release on every exit path -/

/-- C8: for every outcome of the body and of the release step of the locked
append (lock acquired), the `finally` block runs on every exit path: either
the lock release succeeds or its failure is logged, and it is the last event
before the call returns or re-raises; the outcome of the call equals that of the
outcome (a release failure is never propagated); and a write that succeeded
stays in the trace even when the release fails. -/
theorem C8_lock_release (bodyOk releaseOk : Bool) :
    (LockEvent.release ∈ (append_with_lock true bodyOk releaseOk).2 ∨
      LockEvent.logReleaseFailure ∈ (append_with_lock true bodyOk releaseOk).2) ∧
    (append_with_lock true bodyOk releaseOk).2.getLast? =
      some (if releaseOk then LockEvent.release else LockEvent.logReleaseFailure) ∧
    (append_with_lock true bodyOk releaseOk).1 = bodyOk ∧
    (bodyOk = true → LockEvent.write ∈ (append_with_lock true bodyOk releaseOk).2) ∧
    (releaseOk = false →
      LockEvent.logReleaseFailure ∈ (append_with_lock true bodyOk releaseOk).2 ∧
      (append_with_lock true bodyOk releaseOk).1 = bodyOk) := by
  cases bodyOk <;> cases releaseOk <;> decide

theorem C8_lock_release_witness :
    LockEvent.write ∈ (append_with_lock true true false).2 ∧
    LockEvent.logReleaseFailure ∈ (append_with_lock true true false).2 :=
  ⟨(C8_lock_release true false).2.2.2.1 rfl, ((C8_lock_release true false).2.2.2.2 rfl).1⟩

/-! ### C5: per-batch failures never abort the backfill loop -/

/-- The loop visits exactly the scheduled batch ranges whatever the fetch
outcomes: the collected data is the concatenation of the processed points of
the successful batches, and the logged failures are exactly the failed
ranges. -/
theorem batchLoop_spec (fetch : ℤ → ℤ → Except Unit (List (ℚ × ℚ)))
    (last_timestamp current_ts current_time : ℤ) :
    batchLoop fetch last_timestamp current_ts current_time =
      (((batchSchedule current_ts current_time).map (fun r =>
          match fetch r.1 r.2 with
          | .ok batch_data => (batch_data.filter
              (fun point =>
                decide (filterVal point.1 > (last_timestamp : ℚ)))).map process_api_data
          | .error _ => [])).flatten,
        (batchSchedule current_ts current_time).filter (fun r =>
          match fetch r.1 r.2 with
          | .ok _ => false
          | .error _ => true)) := by
  rw [batchLoop, batchSchedule]
  by_cases h : current_ts < current_time
  · rw [if_pos h, if_pos h]
    have ih := batchLoop_spec fetch last_timestamp
      (min (current_ts + BATCH_SIZE * 60) current_time + 60) current_time
    simp only [List.map_cons, List.flatten_cons, List.filter_cons]
    cases hf : fetch current_ts (min (current_ts + BATCH_SIZE * 60) current_time) with
    | ok batch_data =>
      simp only [hf, ih]
      simp
    | error e =>
      simp only [hf, ih]
      simp
  · rw [if_neg h, if_neg h]
    simp
termination_by (current_time - current_ts).toNat
decreasing_by
  simp only [BATCH_SIZE]
  rw [Int.min_def]
  split <;> omega

/-- C5: in every backfill run, a terminal per-batch failure is logged (its
range appears in the failure log), the cursor still advances through the
whole batch schedule, and the remaining batches are still processed: the
collected data is exactly the concatenation, over the full schedule, of the
processed points of the batches whose fetch succeeded — independent of how
many other batches failed — and the failure log is exactly the list of
failed ranges.  A per-batch failure therefore never aborts the run. -/
theorem C5_batch_failures_skipped (fetch : ℤ → ℤ → Except Unit (List (ℚ × ℚ)))
    (last_timestamp current_ts current_time : ℤ) :
    (batchLoop fetch last_timestamp current_ts current_time).1 =
      ((batchSchedule current_ts current_time).map (fun r =>
        match fetch r.1 r.2 with
        | .ok batch_data => (batch_data.filter
            (fun point =>
              decide (filterVal point.1 > (last_timestamp : ℚ)))).map process_api_data
        | .error _ => [])).flatten ∧
    (batchLoop fetch last_timestamp current_ts current_time).2 =
      (batchSchedule current_ts current_time).filter (fun r =>
        match fetch r.1 r.2 with
        | .ok _ => false
        | .error _ => true) := by
  rw [batchLoop_spec]
  exact ⟨rfl, rfl⟩

/-! ### C10: what the boolean result of the run reports -/

/-- C10 counterexample: with a store whose last persisted timestamp is `0`,
a resume point exists (`get_last_timestamp` returned `some 0`, not `none`)
and no error escapes, yet the run returns `False`, because the Python guard
`if not last_timestamp` treats the integer `0` as missing. -/
theorem C10_counterexample :
    get_missing_data (some 0) 1000000 (fun _ _ => Except.error ()) true = (false, []) ∧
    some (0 : ℤ) ≠ none := ⟨rfl, by simp⟩

/-- C10 (amended): the run returns `False` exactly when the last timestamp
is missing *or zero* (Python falsiness), or when there is data to write and
the append step fails (the error escaping outside the batch loop).  In every
other case — including a run in which every single batch fetch failed, so
the loop collected nothing — it returns `True`. -/
theorem C10_run_result (lt : Option ℤ) (current_time : ℤ)
    (fetch : ℤ → ℤ → Except Unit (List (ℚ × ℚ))) (appendOk : Bool) :
    (get_missing_data lt current_time fetch appendOk).1 = false ↔
      lt = none ∨ lt = some 0 ∨
        ∃ t, lt = some t ∧ ¬ (current_time - t < 60) ∧
          (batchLoop fetch t (t + 60) current_time).1 ≠ [] ∧ appendOk = false := by
  match lt with
  | none => simp [get_missing_data]
  | some t =>
    simp only [get_missing_data]
    by_cases h0 : t = 0
    · subst h0
      simp
    · rw [if_neg h0]
      by_cases hup : current_time - t < 60
      · rw [if_pos hup]
        simp [h0, hup]
      · rw [if_neg hup]
        cases hemp : (batchLoop fetch t (t + 60) current_time).1.isEmpty with
        | true =>
          simp only [hemp, if_true]
          simp [h0, hup, List.isEmpty_iff.mp hemp]
        | false =>
          simp only [hemp, Bool.false_eq_true, if_false]
          have hne : (batchLoop fetch t (t + 60) current_time).1 ≠ [] := by
            intro hcontra
            rw [hcontra] at hemp
            exact absurd hemp (by simp)
          cases appendOk with
          | true => simp [h0, hup, hne]
          | false =>
            simp [h0, hup, hne]
            omega

/-! ### C2: the overlap filter at batch boundaries -/

theorem fetchC2_min : min ((10 ^ 9 + 60 : ℤ) + BATCH_SIZE * 60) (10 ^ 9 + 120) =
    10 ^ 9 + 120 := by
  rw [show ((10 ^ 9 + 60 : ℤ) + BATCH_SIZE * 60) = 10 ^ 9 + 86460 from by rw [BATCH_SIZE]; ring]
  exact min_eq_right (by norm_num)

theorem fetchC2_keeps : decide (filterVal ((10 : ℚ) ^ 12 + 500) > ((10 ^ 9 : ℤ) : ℚ)) = true := by
  rw [decide_eq_true_eq, filterVal, if_pos (by norm_num [MILLISECONDS_THRESHOLD])]
  push_cast
  norm_num

theorem fetchC2_record : process_api_data ((10 : ℚ) ^ 12 + 500, 42) =
    { Timestamp := 10 ^ 9, Open := 42, High := 42, Low := 42, Close := 42, Volume := none } := by
  have hts : normalize_timestamp ((10 : ℚ) ^ 12 + 500) = 10 ^ 9 := by
    rw [normalize_timestamp, if_pos (by norm_num [MILLISECONDS_THRESHOLD])]
    rw [truncInt, if_pos (by norm_num)]
    rw [show ((10 : ℚ) ^ 12 + 500) / 1000 = 10 ^ 9 + 1 / 2 by norm_num]
    rw [Int.floor_eq_iff]
    push_cast
    norm_num
  simp [process_api_data, hts]

theorem fetchC2_loop : batchLoop fetchC2 (10 ^ 9) (10 ^ 9 + 60) (10 ^ 9 + 120) =
    ([{ Timestamp := 10 ^ 9, Open := 42, High := 42, Low := 42, Close := 42,
        Volume := none }], []) := by
  have htail : batchLoop fetchC2 (10 ^ 9) (10 ^ 9 + 120 + 60) (10 ^ 9 + 120) = ([], []) := by
    rw [batchLoop, if_neg (by norm_num)]
  rw [batchLoop, if_pos (by norm_num)]
  simp only [fetchC2_min]
  rw [show fetchC2 (10 ^ 9 + 60) (10 ^ 9 + 120) = .ok [((10 : ℚ) ^ 12 + 500, 42)] from by
    rw [fetchC2]
    simp]
  simp only [List.filter_cons, fetchC2_keeps, if_true, List.filter_nil, List.map_cons,
    List.map_nil, fetchC2_record, htail, List.append_nil]

/-- C2: the code keeps a fetched point whenever its **un-truncated**
seconds value exceeds `last_ts`, so a millisecond point inside the second of
`last_ts` itself (raw `10^12 + 500` ms, i.e. `10^9 + 0.5` s, against
`last_ts = 10^9`) passes the filter and is appended with normalized
timestamp exactly `10^9 = last_ts` — not strictly greater, a duplicate of
the last timestamp of the store.  The spec requires normalization to be applied
"uniformly … including values used purely for filtering"; the filter on
line 126 of historical_manager.py omits the `int(...)` truncation. -/
theorem C2_overlap_filter_bug :
    (get_missing_data (some (10 ^ 9)) (10 ^ 9 + 120) fetchC2 true).2 =
      [{ Timestamp := 10 ^ 9, Open := 42, High := 42, Low := 42, Close := 42,
          Volume := none }] ∧
    ¬ ((10 ^ 9 : ℤ) > 10 ^ 9) := by
  constructor
  · simp only [get_missing_data]
    rw [if_neg (by norm_num), if_neg (by norm_num)]
    simp only [fetchC2_loop]
    simp
  · norm_num

end CryptoTop
